import Mathlib

set_option maxHeartbeats 1000000

/-!
# Verification of node-jsonl-storage

A shallow embedding of the queue-and-flags implementation of
`NodeJsonlStorage` (src/index.ts, lines 1-233): the line codec as seen
through `JSON.parse`/`JSON.stringify`, the streaming read operations, the
two rewrite passes (`_insertSetItemQueue` and the pass inlined in
`removeItem`), and a small-step model of the mutation coordinator
(`isWriteStreamBusy`/`isSetItemBusy`/`isRemoveItemBusy`, the two pending
queues, and the `await` boundaries at which Node's cooperative scheduler
can interleave concurrent calls).
-/

namespace Jsonl

/-- A JSON value as stored in the `data` field of a record.  Besides
(de)serialization, the only operation the source performs on a stored value
is the JavaScript truthiness test `if (queueItem)` in
`_insertSetItemQueue`, so the value space is modelled by the standard JSON
constructors. -/
inductive JVal where
  | jnull
  | jbool (b : Bool)
  | jnum (n : Int)
  | jstr (s : String)
  | jarr (elems : List JVal)
  | jobj (fields : List (String × JVal))

/-- JavaScript truthiness of a stored value: `null`, `false`, `0` and the
empty string are falsy; arrays and objects are always truthy.  This is the
test `if (queueItem)` performs in `_insertSetItemQueue` (src/index.ts:195). -/
def JVal.truthy : JVal → Bool
  | .jnull => false
  | .jbool b => b
  | .jnum n => n != 0
  | .jstr s => s != ""
  | .jarr _ => true
  | .jobj _ => true

/-- One line of the store file as seen through the per-line processing of
the source — `const json = JSON.parse(line)` followed by reads of
`json.key` and `json.data`:

* `record k v` — a line parsing to an object whose `key` field is the
  string `k` and whose `data` field is `v` (the shape
  `JSON.stringify({ key, data })` produces);
* `noRecord` — a line that parses, but to a value that is not such a
  record, e.g. `{}`, a number, an array: `json.key` and `json.data`
  evaluate to `undefined`, so the line strict-equals no queried key, is in
  no drained string queue, and every `Map.get` on its key misses;
* `bad` — a line whose processing throws: `JSON.parse` throws, or the line
  is `null` so that reading `json.key` throws.

A record-shaped line with a `key` but a missing `data` field behaves like
`record` with an `undefined` payload; no claim depends on it and it is
outside this abstraction. -/
inductive JLine where
  | record (key : String) (data : JVal)
  | noRecord
  | bad

/-- Whether a line is a well-formed record. -/
def JLine.isRecord : JLine → Bool
  | .record _ _ => true
  | .noRecord => false
  | .bad => false

/-- A store file with no malformed line. -/
def wellFormed (f : List JLine) : Bool := f.all JLine.isRecord

/-- Whether a line is a record carrying key `k` (the comparison
`json.key === key` of the source). -/
def lineHasKey (k : String) : JLine → Bool
  | .record k2 _ => k2 == k
  | .noRecord => false
  | .bad => false

/-- Whether some line of the file is a record with key `k`. -/
def hasKey (f : List JLine) (k : String) : Bool := f.any (lineHasKey k)

/-- Whether the per-line processing of this line throws. -/
def JLine.throws : JLine → Bool
  | .record _ _ => false
  | .noRecord => false
  | .bad => true

/-- A file none of whose lines throw: every line parses (lines that parse
to non-record JSON are allowed). -/
def parseable (f : List JLine) : Bool := f.all (fun l => !l.throws)

/-- The `key` field `keys` pushes for a line: `undefined` (`none`) for a
line that is not a record. -/
def lineKey : JLine → Option String
  | .record k _ => some k
  | .noRecord => none
  | .bad => none

/-- The `(item, key)` argument pair `iterate` passes to the callback for a
line: both `undefined` for a line that is not a record. -/
def lineCall : JLine → Option JVal × Option String
  | .record k v => (some v, some k)
  | .noRecord => (none, none)
  | .bad => (none, none)

/-- The error kinds of the spec that arise in the pure embedding.  A line on
which `JSON.parse` throws surfaces as `malformedRecord`; following the
embedding convention, fallible operations return `Except` where the source
throws. -/
inductive JsonlError where
  | malformedRecord

/-- Embedding of `getItem` (src/index.ts:37-58): scan the lines in file
order, process each one (a throw is the `.error` case), return the `data`
of the first record whose key equals `key` and stop scanning there
(`rl.close()`); a non-record line is skipped silently, since its
`undefined` key strict-equals no string key; reaching the end without a
match resolves `undefined`, modelled as `none`. -/
def getItem (key : String) : List JLine → Except JsonlError (Option JVal)
  | [] => .ok none
  | .bad :: _ => .error .malformedRecord
  | .noRecord :: rest => getItem key rest
  | .record k v :: rest => if k = key then .ok (some v) else getItem key rest

/-- Embedding of `keys` (src/index.ts:103-120): push `JSON.parse(line).key`
for every line in order — `undefined` (`none`) for a line that is not a
record, with no error raised; a throwing line fails before any further key
is pushed. -/
def keys : List JLine → Except JsonlError (List (Option String))
  | [] => .ok []
  | .bad :: _ => .error .malformedRecord
  | .noRecord :: rest => (keys rest).map (fun ks => none :: ks)
  | .record k _ :: rest => (keys rest).map (fun ks => some k :: ks)

/-- Embedding of `iterate` (src/index.ts:60-77): the sequence of
`(item, key)` argument pairs passed to the callback, in file order; for a
line that is not a record the callback is still invoked, with both
arguments `undefined`, and no error is raised; a throwing line fails
before any further callback fires. -/
def iterate : List JLine → Except JsonlError (List (Option JVal × Option String))
  | [] => .ok []
  | .bad :: _ => .error .malformedRecord
  | .noRecord :: rest => (iterate rest).map (fun xs => (none, none) :: xs)
  | .record k v :: rest => (iterate rest).map (fun xs => (some v, some k) :: xs)

/-- Embedding of `length` (src/index.ts:122-136): it counts `line` events
without parsing them, so it is the plain line count and never fails, even on
malformed lines. -/
def length (f : List JLine) : Nat := f.length

/-- `Array.prototype.includes` on the drained removal queue
(`queue.includes(json.key)`, src/index.ts:161). -/
def includes : List String → String → Bool
  | [], _ => false
  | x :: rest, k => if x = k then true else includes rest k

/-- The JavaScript `Map.set` used by the `Map` constructor: if the key is
already present its value is overwritten in place (keeping the key's
insertion position), otherwise the entry is appended. -/
def mapInsert : List (String × JVal) → String → JVal → List (String × JVal)
  | [], k, v => [(k, v)]
  | p :: rest, k, v => if p.1 = k then (k, v) :: rest else p :: mapInsert rest k v

/-- The `queueMap` built by `new Map(queue.map(({key, item}) => [key, item]))`
(src/index.ts:190): keys keep the position of their first enqueue, values are
last-write-wins across the drained queue. -/
def mapOfQueue (q : List (String × JVal)) : List (String × JVal) :=
  q.foldl (fun m p => mapInsert m p.1 p.2) []

/-- `queueMap.get(key)` (first — and only — matching entry). -/
def mapGet : List (String × JVal) → String → Option JVal
  | [], _ => none
  | p :: rest, k => if p.1 = k then some p.2 else mapGet rest k

/-- `queueMap.delete(key)`: the entry for `key` is removed, the order of the
remaining entries is unchanged. -/
def mapErase : List (String × JVal) → String → List (String × JVal)
  | [], _ => []
  | p :: rest, k => if p.1 = k then mapErase rest k else p :: mapErase rest k

/-- Embedding of the rewrite pass of `_insertSetItemQueue`
(src/index.ts:178-215), applied to the drained queue map `qm`.  Per line:
`JSON.parse` (a throw fails the pass); look the parsed key up in the queue
map; when the looked-up item is truthy (`if (queueItem)`) the line is
replaced by the re-encoded record `{key, data: queueItem}` and the key is
deleted from the map; when it is falsy or absent the original line is
written unchanged.  A line that is not a record is also written unchanged:
`queueMap.get(undefined)` is `undefined`, hence falsy.  After the last
line, the entries still in the map are appended in map iteration order.
The result is what the pass wrote to the temporary file, which the source
then swaps over the original with adjacent `unlinkSync`/`renameSync` calls
(src/index.ts:213-214). -/
def setItemPass (qm : List (String × JVal)) : List JLine → Except JsonlError (List JLine)
  | [] => .ok (qm.map (fun p => JLine.record p.1 p.2))
  | .bad :: _ => .error .malformedRecord
  | .noRecord :: rest => (setItemPass qm rest).map (fun out => JLine.noRecord :: out)
  | .record k v :: rest =>
    match mapGet qm k with
    | some item =>
      if item.truthy then
        (setItemPass (mapErase qm k) rest).map (fun out => JLine.record k item :: out)
      else
        (setItemPass qm rest).map (fun out => JLine.record k v :: out)
    | none => (setItemPass qm rest).map (fun out => JLine.record k v :: out)

/-- Embedding of the rewrite pass inlined in `removeItem`
(src/index.ts:147-172), applied to the drained removal queue `q`: lines
whose parsed key is in the queue are dropped, all other lines — including
lines that are not records, whose `undefined` key is in no string queue —
are written unchanged; a throwing line fails the pass.  The result is what
the pass wrote to the temporary file that the source swaps over the
original. -/
def removeItemPass (q : List String) : List JLine → Except JsonlError (List JLine)
  | [] => .ok []
  | .bad :: _ => .error .malformedRecord
  | .noRecord :: rest => (removeItemPass q rest).map (fun out => JLine.noRecord :: out)
  | .record k v :: rest =>
    if includes q k then removeItemPass q rest
    else (removeItemPass q rest).map (fun out => JLine.record k v :: out)

/-- A solo `setItem(k, v)` call on an idle store: it enqueues `{key, item}`,
becomes the driver, and its pass drains exactly the singleton queue
`[(k, v)]` into the queue map. -/
def setItemSolo (k : String) (v : JVal) (f : List JLine) : Except JsonlError (List JLine) :=
  setItemPass (mapOfQueue [(k, v)]) f

/-- A solo `removeItem(k)` call on an idle store: its pass drains exactly
the singleton removal queue `[k]`. -/
def removeItemSolo (k : String) (f : List JLine) : Except JsonlError (List JLine) :=
  removeItemPass [k] f

/-!
## Small-step model of the mutation coordinator

Node runs all of these methods on one thread; control can change hands only
at `await` boundaries.  Each public call is modelled as a task that advances
through the suspension points of the source:

* `setItem` (src/index.ts:217-232): the synchronous prologue pushes
  `{key, item}` and either returns at once (`isSetItemBusy` already set) or
  sets `isSetItemBusy` and suspends at `await this.waitForWrite()`.
  `waitForWrite` (src/index.ts:26-28) exits its polling loop at a check that
  sees `isWriteStreamBusy === false`; the caller's continuation then resumes
  in a later microtask — the check and the continuation are separate steps,
  which is exactly the source's check-then-act gap.  The continuation sets
  `isWriteStreamBusy`, opens the read stream and the temp write stream, and
  drains the queue into the `Map` (all synchronous, one step).  The pass
  then runs; when it completes, the source's `unlinkSync`/`renameSync` pair
  plus the flag resets form one synchronous block (one step).
* `removeItem` (src/index.ts:138-176): same shape with `isRemoveItemBusy`
  and the removal queue.
* `clear` (src/index.ts:30-35): entirely synchronous — one step that deletes
  and recreates the file; its net effect on `isWriteStreamBusy` is to leave
  it `false` (it sets the flag and clears it inside the same block), and it
  never awaits anything.
* a read (shown for `getItem`, src/index.ts:37-44; `iterate`, `key`, `keys`
  and `length` have the identical prologue): a check of `waitForWrite` that
  sees `isWriteStreamBusy === false`, then a continuation that opens the
  read stream on the store path — never on the temp path — capturing the
  store content at open time.

`history` is ghost state: every content the store path has held — the
initial content, each content a swap published (the pass's complete output
when the temp file was fully flushed by then, or only its flushed prefix
when a temp-write fault struck, see `Step.setSwapFault`), and the empty
file `clear` recreates.
-/

/-- The per-store mutable fields of `NodeJsonlStorage` (src/index.ts:12-18)
plus the store-file content and the ghost `history` of published contents. -/
structure StoreState where
  file : List JLine
  history : List (List JLine)
  isWriteStreamBusy : Bool
  isSetItemBusy : Bool
  isRemoveItemBusy : Bool
  setItemQueue : List (String × JVal)
  removeItemQueue : List String

/-- The control point of one in-flight public call, cut at the `await`
boundaries of the source.  `setFinish`/`remFinish` is the window in which
the pass owns open read/write file handles: it starts when the driver's
continuation opens its streams and ends when the swap block runs.  The
snapshot recorded in `setFinish`, `remFinish` and `getDone` is the store
content at the moment the read stream opened. -/
inductive Task where
  | setStart (k : String) (v : JVal)
  | setWait
  | setRun
  | setFinish (snapshot : List JLine) (qm : List (String × JVal))
  | setDone
  | remStart (k : String)
  | remWait
  | remRun
  | remFinish (snapshot : List JLine) (q : List String)
  | remDone
  | clearStart
  | clearDone
  | getStart (k : String)
  | getOpen (k : String)
  | getDone (k : String) (snapshot : List JLine)

/-- A configuration: the shared store state and the in-flight tasks. -/
abbrev Config := StoreState × List Task

/-- One scheduler step: some task advances to its next suspension point.
Each constructor is the synchronous block the source executes between two
`await` boundaries (see the section comment for the correspondence).

The swap has two outcomes, because the source does not condition it on the
temp write stream's success: the `close` handler calls
`tempFileStream.end()` and resolves immediately (src/index.ts:202-210),
neither awaiting the stream's `finish` event nor installing an `error`
handler, and `unlinkSync`/`renameSync` then run unconditionally
(src/index.ts:213-214).  `setSwap`/`remSwap` is the fault-free outcome —
everything the pass wrote was flushed before the rename.
`setSwapFault`/`remSwapFault` is a temp-write I/O fault mid-pass (e.g.
disk full): the read side still completes, the promise still resolves, and
the rename still runs, but only a prefix of the pass output has reached
the temp file, so that prefix is what gets published at the store path —
the call resolves without an error.

One further behaviour of the source sits below this relation's line
granularity: both pass kinds derive the single temporary path
`...-temp.jsonl` from the store path (src/index.ts:153, 185), so when the
double-drive race (see C1) puts two passes' write streams on that one
path, their writes overlay byte-by-byte at independent offsets and the
first `renameSync` publishes an inode the other pass is still writing to.
The relation does not enumerate those byte-level interleavings; that
divergence is recorded with claims C1 and C4. -/
inductive Step : Config → Config → Prop where
  | setStartBusy (s : StoreState) (ts : List Task) (i : Nat) (k : String) (v : JVal) :
      ts.get? i = some (.setStart k v) →
      s.isSetItemBusy = true →
      Step (s, ts)
        ({ s with setItemQueue := s.setItemQueue ++ [(k, v)] }, ts.set i .setDone)
  | setStartDrive (s : StoreState) (ts : List Task) (i : Nat) (k : String) (v : JVal) :
      ts.get? i = some (.setStart k v) →
      s.isSetItemBusy = false →
      Step (s, ts)
        ({ s with
            setItemQueue := s.setItemQueue ++ [(k, v)],
            isSetItemBusy := true },
         ts.set i .setWait)
  | setWaitClear (s : StoreState) (ts : List Task) (i : Nat) :
      ts.get? i = some .setWait →
      s.isWriteStreamBusy = false →
      Step (s, ts) (s, ts.set i .setRun)
  | setOpen (s : StoreState) (ts : List Task) (i : Nat) :
      ts.get? i = some .setRun →
      Step (s, ts)
        ({ s with
            isWriteStreamBusy := true,
            setItemQueue := [] },
         ts.set i (.setFinish s.file (mapOfQueue s.setItemQueue)))
  | setSwap (s : StoreState) (ts : List Task) (i : Nat)
      (snap : List JLine) (qm : List (String × JVal)) (out : List JLine) :
      ts.get? i = some (.setFinish snap qm) →
      setItemPass qm snap = .ok out →
      Step (s, ts)
        ({ s with
            file := out,
            history := s.history ++ [out],
            isWriteStreamBusy := false,
            isSetItemBusy := false },
         ts.set i .setDone)
  | setSwapFault (s : StoreState) (ts : List Task) (i : Nat)
      (snap : List JLine) (qm : List (String × JVal)) (out pre : List JLine) :
      ts.get? i = some (.setFinish snap qm) →
      setItemPass qm snap = .ok out →
      pre <+: out →
      Step (s, ts)
        ({ s with
            file := pre,
            history := s.history ++ [pre],
            isWriteStreamBusy := false,
            isSetItemBusy := false },
         ts.set i .setDone)
  | remStartBusy (s : StoreState) (ts : List Task) (i : Nat) (k : String) :
      ts.get? i = some (.remStart k) →
      s.isRemoveItemBusy = true →
      Step (s, ts)
        ({ s with removeItemQueue := s.removeItemQueue ++ [k] }, ts.set i .remDone)
  | remStartDrive (s : StoreState) (ts : List Task) (i : Nat) (k : String) :
      ts.get? i = some (.remStart k) →
      s.isRemoveItemBusy = false →
      Step (s, ts)
        ({ s with
            removeItemQueue := s.removeItemQueue ++ [k],
            isRemoveItemBusy := true },
         ts.set i .remWait)
  | remWaitClear (s : StoreState) (ts : List Task) (i : Nat) :
      ts.get? i = some .remWait →
      s.isWriteStreamBusy = false →
      Step (s, ts) (s, ts.set i .remRun)
  | remOpen (s : StoreState) (ts : List Task) (i : Nat) :
      ts.get? i = some .remRun →
      Step (s, ts)
        ({ s with
            isWriteStreamBusy := true,
            removeItemQueue := [] },
         ts.set i (.remFinish s.file s.removeItemQueue))
  | remSwap (s : StoreState) (ts : List Task) (i : Nat)
      (snap : List JLine) (q : List String) (out : List JLine) :
      ts.get? i = some (.remFinish snap q) →
      removeItemPass q snap = .ok out →
      Step (s, ts)
        ({ s with
            file := out,
            history := s.history ++ [out],
            isWriteStreamBusy := false,
            isRemoveItemBusy := false },
         ts.set i .remDone)
  | remSwapFault (s : StoreState) (ts : List Task) (i : Nat)
      (snap : List JLine) (q : List String) (out pre : List JLine) :
      ts.get? i = some (.remFinish snap q) →
      removeItemPass q snap = .ok out →
      pre <+: out →
      Step (s, ts)
        ({ s with
            file := pre,
            history := s.history ++ [pre],
            isWriteStreamBusy := false,
            isRemoveItemBusy := false },
         ts.set i .remDone)
  | clearStep (s : StoreState) (ts : List Task) (i : Nat) :
      ts.get? i = some .clearStart →
      Step (s, ts)
        ({ s with
            file := [],
            history := s.history ++ [[]],
            isWriteStreamBusy := false },
         ts.set i .clearDone)
  | readWaitClear (s : StoreState) (ts : List Task) (i : Nat) (k : String) :
      ts.get? i = some (.getStart k) →
      s.isWriteStreamBusy = false →
      Step (s, ts) (s, ts.set i (.getOpen k))
  | readOpen (s : StoreState) (ts : List Task) (i : Nat) (k : String) :
      ts.get? i = some (.getOpen k) →
      Step (s, ts) (s, ts.set i (.getDone k s.file))

/-- Zero or more scheduler steps. -/
inductive Reachable : Config → Config → Prop where
  | refl (c : Config) : Reachable c c
  | tail (a b c : Config) : Reachable a b → Step b c → Reachable a c

/-- A store just constructed over file content `f`: no flags set, empty
queues, and `f` is the only content the store path has held so far. -/
def initStore (f : List JLine) : StoreState :=
  ⟨f, [f], false, false, false, [], []⟩

/-- An initial configuration: a fresh store and a list of pending calls. -/
def initConfig (f : List JLine) (ts : List Task) : Config := (initStore f, ts)

/-- A task currently holding open read/write file handles on the store:
the window between a driver's stream-open block and its swap block. -/
def passOpen : Task → Bool
  | .setFinish _ _ => true
  | .remFinish _ _ => true
  | _ => false

/-- How many rewrite passes currently hold open file handles. -/
def countPassOpen (ts : List Task) : Nat := (ts.filter passOpen).length

/-- A line untouched by a drained batch: a record whose key is not among the
drained keys (lines that are not records are outside any batch). -/
def untouched (ks : List String) : JLine → Bool
  | .record k _ => !(includes ks k)
  | .noRecord => true
  | .bad => true

/-!
## Helper lemmas
-/

theorem except_map_eq_ok {γ α β : Type} {x : Except γ α} {g : α → β} {b : β}
    (h : x.map g = .ok b) : ∃ a, x = .ok a ∧ g a = b := by
  cases x with
  | error e => cases h
  | ok a => exact ⟨a, rfl, by cases h; rfl⟩

/-- A malformed line anywhere in the input fails the whole set pass. -/
theorem setItemPass_bad (f : List JLine) (hb : JLine.bad ∈ f) :
    ∀ qm, setItemPass qm f = .error .malformedRecord := by
  induction f with
  | nil => cases hb
  | cons l rest ih =>
    intro qm
    cases l with
    | bad => rfl
    | noRecord =>
      have hb2 : JLine.bad ∈ rest := by
        cases hb with
        | tail _ h => exact h
      simp [setItemPass, ih hb2 qm, Except.map]
    | record k v =>
      have hb2 : JLine.bad ∈ rest := by
        cases hb with
        | tail _ h => exact h
      simp only [setItemPass]
      cases hget : mapGet qm k with
      | some item =>
        cases htr : item.truthy with
        | true => simp [htr, ih hb2 (mapErase qm k), Except.map]
        | false => simp [htr, ih hb2 qm, Except.map]
      | none => simp [ih hb2 qm, Except.map]

/-- A malformed line anywhere in the input fails the whole remove pass. -/
theorem removeItemPass_bad (f : List JLine) (hb : JLine.bad ∈ f) :
    ∀ q, removeItemPass q f = .error .malformedRecord := by
  induction f with
  | nil => cases hb
  | cons l rest ih =>
    intro q
    cases l with
    | bad => rfl
    | noRecord =>
      have hb2 : JLine.bad ∈ rest := by
        cases hb with
        | tail _ h => exact h
      simp [removeItemPass, ih hb2 q, Except.map]
    | record k v =>
      have hb2 : JLine.bad ∈ rest := by
        cases hb with
        | tail _ h => exact h
      simp only [removeItemPass]
      cases hinc : includes q k with
      | true => simp [ih hb2 q]
      | false => simp [ih hb2 q, Except.map]

/-- A malformed line anywhere in the file fails `keys`. -/
theorem keys_bad (f : List JLine) (hb : JLine.bad ∈ f) :
    keys f = .error .malformedRecord := by
  induction f with
  | nil => cases hb
  | cons l rest ih =>
    cases l with
    | bad => rfl
    | noRecord =>
      have hb2 : JLine.bad ∈ rest := by
        cases hb with
        | tail _ h => exact h
      simp [keys, ih hb2, Except.map]
    | record k v =>
      have hb2 : JLine.bad ∈ rest := by
        cases hb with
        | tail _ h => exact h
      simp [keys, ih hb2, Except.map]

/-- A malformed line anywhere in the file fails `iterate`. -/
theorem iterate_bad (f : List JLine) (hb : JLine.bad ∈ f) :
    iterate f = .error .malformedRecord := by
  induction f with
  | nil => cases hb
  | cons l rest ih =>
    cases l with
    | bad => rfl
    | noRecord =>
      have hb2 : JLine.bad ∈ rest := by
        cases hb with
        | tail _ h => exact h
      simp [iterate, ih hb2, Except.map]
    | record k v =>
      have hb2 : JLine.bad ∈ rest := by
        cases hb with
        | tail _ h => exact h
      simp [iterate, ih hb2, Except.map]

/-- `getItem` reaches a malformed line — and so fails — whenever no record
with the queried key precedes it. -/
theorem getItem_reaches_bad (pre post : List JLine) (key : String)
    (hpre : ∀ l ∈ pre, lineHasKey key l = false) :
    getItem key (pre ++ JLine.bad :: post) = .error .malformedRecord := by
  induction pre with
  | nil => rfl
  | cons l rest ih =>
    cases l with
    | bad => rfl
    | noRecord =>
      simp only [List.cons_append, getItem]
      exact ih (fun l hl => hpre l (List.mem_cons_of_mem _ hl))
    | record k v =>
      have hk : (k == key) = false := hpre _ (List.mem_cons_self _ _)
      have hne : ¬(k = key) := by
        intro h
        rw [h] at hk
        simp at hk
      simp only [List.cons_append, getItem, if_neg hne]
      exact ih (fun l hl => hpre l (List.mem_cons_of_mem _ hl))

/-- A file of records only also has no throwing line. -/
theorem parseable_of_wellFormed (f : List JLine) (h : wellFormed f = true) :
    parseable f = true := by
  induction f with
  | nil => rfl
  | cons l rest ih =>
    simp only [wellFormed, List.all_cons, Bool.and_eq_true] at h
    simp only [parseable, List.all_cons, Bool.and_eq_true]
    refine ⟨?_, ih h.2⟩
    cases l with
    | record k v => rfl
    | noRecord => exact Bool.noConfusion h.1
    | bad => exact Bool.noConfusion h.1

/-- Scanning a file whose every line parses and which holds no record with
the queried key yields `none`: non-record lines are skipped silently. -/
theorem getItem_none (f : List JLine) (key : String)
    (hp : parseable f = true) (hk : hasKey f key = false) :
    getItem key f = .ok none := by
  induction f with
  | nil => rfl
  | cons l rest ih =>
    simp only [parseable, List.all_cons, Bool.and_eq_true] at hp
    simp only [hasKey, List.any_cons, Bool.or_eq_false_iff] at hk
    cases l with
    | bad => exact Bool.noConfusion hp.1
    | noRecord =>
      simp only [getItem]
      exact ih hp.2 (by simpa [hasKey] using hk.2)
    | record k v =>
      have hne : ¬(k = key) := by
        intro h
        have := hk.1
        rw [lineHasKey, h] at this
        simp at this
      simp only [getItem, if_neg hne]
      exact ih hp.2 (by simpa [hasKey] using hk.2)

/-- On a file whose every line parses, `keys` succeeds, pushing each line's
(possibly `undefined`) `key` field in order — lines that are not valid
records contribute `undefined` instead of failing. -/
theorem keys_parseable (f : List JLine) (hp : parseable f = true) :
    keys f = .ok (f.map lineKey) := by
  induction f with
  | nil => rfl
  | cons l rest ih =>
    simp only [parseable, List.all_cons, Bool.and_eq_true] at hp
    have hrest := ih hp.2
    cases l with
    | bad => exact Bool.noConfusion hp.1
    | noRecord => simp [keys, hrest, Except.map, lineKey]
    | record k v => simp [keys, hrest, Except.map, lineKey]

/-- On a file whose every line parses, `iterate` succeeds, invoking the
callback once per line, with `undefined` arguments for lines that are not
valid records — no failure, no skipped callback. -/
theorem iterate_parseable (f : List JLine) (hp : parseable f = true) :
    iterate f = .ok (f.map lineCall) := by
  induction f with
  | nil => rfl
  | cons l rest ih =>
    simp only [parseable, List.all_cons, Bool.and_eq_true] at hp
    have hrest := ih hp.2
    cases l with
    | bad => exact Bool.noConfusion hp.1
    | noRecord => simp [iterate, hrest, Except.map, lineCall]
    | record k v => simp [iterate, hrest, Except.map, lineCall]

/-- Inserting a genuinely new key appends it: on a well-formed file without
`k`, the set pass with drained queue `[(k, v)]` keeps every line unchanged
and appends the one new record at the end — for every value `v`, truthy or
not, since the patch branch is never taken. -/
theorem setItemPass_insert (f : List JLine) (k : String) (v : JVal)
    (hwf : wellFormed f = true) (hk : hasKey f k = false) :
    setItemPass [(k, v)] f = .ok (f ++ [JLine.record k v]) := by
  induction f with
  | nil => rfl
  | cons l rest ih =>
    cases l with
    | bad => simp [wellFormed, JLine.isRecord] at hwf
    | noRecord => simp [wellFormed, JLine.isRecord] at hwf
    | record k2 v2 =>
      simp only [wellFormed, List.all_cons, Bool.and_eq_true] at hwf
      simp only [hasKey, List.any_cons, Bool.or_eq_false_iff] at hk
      have hne : ¬(k = k2) := by
        intro h
        have := hk.1
        rw [lineHasKey, h] at this
        simp at this
      have hget : mapGet [(k, v)] k2 = none := by
        simp [mapGet, hne]
      have hrest := ih hwf.2 (by simpa [hasKey] using hk.2)
      simp [setItemPass, hget, hrest, Except.map]

/-- The remove pass drops exactly the appended record for `k` when the rest
of the file does not mention `k`. -/
theorem removeItemPass_dropLast (f : List JLine) (k : String) (v : JVal)
    (hwf : wellFormed f = true) (hk : hasKey f k = false) :
    removeItemPass [k] (f ++ [JLine.record k v]) = .ok f := by
  induction f with
  | nil => simp [removeItemPass, includes]
  | cons l rest ih =>
    cases l with
    | bad => simp [wellFormed, JLine.isRecord] at hwf
    | noRecord => simp [wellFormed, JLine.isRecord] at hwf
    | record k2 v2 =>
      simp only [wellFormed, List.all_cons, Bool.and_eq_true] at hwf
      simp only [hasKey, List.any_cons, Bool.or_eq_false_iff] at hk
      have hne : ¬(k = k2) := by
        intro h
        have := hk.1
        rw [lineHasKey, h] at this
        simp at this
      have hinc : includes [k] k2 = false := by
        simp [includes, hne]
      have hrest := ih hwf.2 (by simpa [hasKey] using hk.2)
      simp [removeItemPass, hinc, hrest, Except.map]

/-- The remove pass keeps a well-formed file without `k` intact, line for
line. -/
theorem removeItemPass_absent (f : List JLine) (k : String)
    (hwf : wellFormed f = true) (hk : hasKey f k = false) :
    removeItemPass [k] f = .ok f := by
  induction f with
  | nil => rfl
  | cons l rest ih =>
    cases l with
    | bad => simp [wellFormed, JLine.isRecord] at hwf
    | noRecord => simp [wellFormed, JLine.isRecord] at hwf
    | record k2 v2 =>
      simp only [wellFormed, List.all_cons, Bool.and_eq_true] at hwf
      simp only [hasKey, List.any_cons, Bool.or_eq_false_iff] at hk
      have hne : ¬(k = k2) := by
        intro h
        have := hk.1
        rw [lineHasKey, h] at this
        simp at this
      have hinc : includes [k] k2 = false := by
        simp [includes, hne]
      have hrest := ih hwf.2 (by simpa [hasKey] using hk.2)
      simp [removeItemPass, hinc, hrest, Except.map]

theorem includes_map_fst (m : List (String × JVal)) (p : String × JVal) (hm : p ∈ m) :
    includes (m.map Prod.fst) p.1 = true := by
  induction m with
  | nil => cases hm
  | cons q rest ih =>
    cases hm with
    | head => simp [includes]
    | tail _ hmem =>
      simp only [List.map_cons, includes]
      by_cases h : q.1 = p.1
      · simp [h]
      · simp only [if_neg h]
        exact ih hmem

theorem includes_of_mapGet {m : List (String × JVal)} {K : List String} {k : String} {v : JVal}
    (hget : mapGet m k = some v) (hK : ∀ p ∈ m, includes K p.1 = true) :
    includes K k = true := by
  induction m with
  | nil => cases hget
  | cons p rest ih =>
    by_cases h : p.1 = k
    · have := hK p (List.mem_cons_self _ _)
      rw [h] at this
      exact this
    · simp only [mapGet, if_neg h] at hget
      exact ih hget (fun q hq => hK q (List.mem_cons_of_mem _ hq))

theorem mem_of_mem_mapErase {m : List (String × JVal)} {k : String} {p : String × JVal}
    (h : p ∈ mapErase m k) : p ∈ m := by
  induction m with
  | nil => cases h
  | cons q rest ih =>
    by_cases hq : q.1 = k
    · simp only [mapErase, if_pos hq] at h
      exact List.mem_cons_of_mem _ (ih h)
    · simp only [mapErase, if_neg hq] at h
      cases h with
      | head => exact List.mem_cons_self _ _
      | tail _ hmem => exact List.mem_cons_of_mem _ (ih hmem)

/-- Frame property of the set pass: lines whose key is outside the batch
keys `K` come through unchanged and in order. -/
theorem setItemPass_filter (f : List JLine) :
    ∀ (qm : List (String × JVal)) (K : List String) (out : List JLine),
      (∀ p ∈ qm, includes K p.1 = true) →
      setItemPass qm f = .ok out →
      out.filter (untouched K) = f.filter (untouched K) := by
  induction f with
  | nil =>
    intro qm K out hK hok
    simp only [setItemPass, Except.ok.injEq] at hok
    subst hok
    simp only [List.filter_nil]
    rw [List.filter_eq_nil_iff]
    intro l hl
    rcases List.mem_map.mp hl with ⟨p, hp, rfl⟩
    simp [untouched, hK p hp]
  | cons l rest ih =>
    intro qm K out hK hok
    cases l with
    | bad => cases hok
    | noRecord =>
      simp only [setItemPass] at hok
      rcases except_map_eq_ok hok with ⟨out1, hpass, rfl⟩
      have := ih qm K out1 hK hpass
      simp [List.filter_cons, untouched, this]
    | record k v =>
      simp only [setItemPass] at hok
      split at hok
      · rename_i item hget
        have hkK : includes K k = true := includes_of_mapGet hget hK
        split at hok
        · rename_i htr
          rcases except_map_eq_ok hok with ⟨out1, hpass, rfl⟩
          have hK2 : ∀ p ∈ mapErase qm k, includes K p.1 = true :=
            fun p hp => hK p (mem_of_mem_mapErase hp)
          have := ih (mapErase qm k) K out1 hK2 hpass
          simp [List.filter_cons, untouched, hkK, this]
        · rename_i htr
          rcases except_map_eq_ok hok with ⟨out1, hpass, rfl⟩
          have := ih qm K out1 hK hpass
          simp [List.filter_cons, untouched, hkK, this]
      · rename_i hget
        rcases except_map_eq_ok hok with ⟨out1, hpass, rfl⟩
        have := ih qm K out1 hK hpass
        cases hkK : includes K k with
        | true => simp [List.filter_cons, untouched, hkK, this]
        | false => simp [List.filter_cons, untouched, hkK, this]

/-- Frame property of the remove pass: lines whose key is outside the
drained removal queue come through unchanged and in order. -/
theorem removeItemPass_filter (f : List JLine) :
    ∀ (q : List String) (out : List JLine),
      removeItemPass q f = .ok out →
      out.filter (untouched q) = f.filter (untouched q) := by
  induction f with
  | nil =>
    intro q out hok
    have h0 : (Except.ok [] : Except JsonlError (List JLine)) = .ok out := hok
    injection h0 with h
    subst h
    rfl
  | cons l rest ih =>
    intro q out hok
    cases l with
    | bad => cases hok
    | noRecord =>
      simp only [removeItemPass] at hok
      rcases except_map_eq_ok hok with ⟨out1, hpass, rfl⟩
      have := ih q out1 hpass
      simp [List.filter_cons, untouched, this]
    | record k v =>
      simp only [removeItemPass] at hok
      split at hok
      · rename_i hinc
        have := ih q out hok
        simp [List.filter_cons, untouched, hinc, this]
      · rename_i hinc
        have hincf : includes q k = false := Bool.not_eq_true _ ▸ Bool.of_not_eq_true hinc
        rcases except_map_eq_ok hok with ⟨out1, hpass, rfl⟩
        have := ih q out1 hpass
        simp [List.filter_cons, untouched, hincf, this]

theorem reachable_preserve {P : Config → Prop}
    (hstep : ∀ a b : Config, P a → Step a b → P b) :
    ∀ {a b : Config}, Reachable a b → P a → P b := by
  intro a b h
  induction h with
  | refl => exact id
  | tail _ _ hab hbc ih => exact fun pa => hstep _ _ (ih pa) hbc

/-!
## The no-swap-on-failure invariant
-/

/-- Task states compatible with "no pass over `f0` can ever complete": no
pending `clear` call, and every in-flight pass snapshotted `f0` itself. -/
def taskNoSwap (f0 : List JLine) : Task → Prop
  | .clearStart => False
  | .setFinish snap _ => snap = f0
  | .remFinish snap _ => snap = f0
  | _ => True

/-- The store file still holds its initial content `f0`, nothing has ever
been swapped in (`history` is still just `[f0]`), and the tasks cannot break
that. -/
def NoSwapInv (f0 : List JLine) (c : Config) : Prop :=
  c.1.file = f0 ∧ c.1.history = [f0] ∧ ∀ t ∈ c.2, taskNoSwap f0 t

theorem noSwapInv_step {f0 : List JLine} (hbad : JLine.bad ∈ f0) {c c2 : Config}
    (hinv : NoSwapInv f0 c) (st : Step c c2) : NoSwapInv f0 c2 := by
  obtain ⟨hfile, hhist, htasks⟩ := hinv
  cases st with
  | setStartBusy s ts i k v hget hbusy =>
    refine ⟨hfile, hhist, fun t ht => ?_⟩
    rcases List.mem_or_eq_of_mem_set ht with h | h
    · exact htasks t h
    · subst h; trivial
  | setStartDrive s ts i k v hget hbusy =>
    refine ⟨hfile, hhist, fun t ht => ?_⟩
    rcases List.mem_or_eq_of_mem_set ht with h | h
    · exact htasks t h
    · subst h; trivial
  | setWaitClear s ts i hget hbusy =>
    refine ⟨hfile, hhist, fun t ht => ?_⟩
    rcases List.mem_or_eq_of_mem_set ht with h | h
    · exact htasks t h
    · subst h; trivial
  | setOpen s ts i hget =>
    refine ⟨hfile, hhist, fun t ht => ?_⟩
    rcases List.mem_or_eq_of_mem_set ht with h | h
    · exact htasks t h
    · subst h
      exact hfile
  | setSwap s ts i snap qm out hget hok =>
    exfalso
    have hsnap : snap = f0 := htasks _ (List.get?_mem hget)
    rw [hsnap, setItemPass_bad f0 hbad qm] at hok
    cases hok
  | setSwapFault s ts i snap qm out pre hget hok hpre =>
    exfalso
    have hsnap : snap = f0 := htasks _ (List.get?_mem hget)
    rw [hsnap, setItemPass_bad f0 hbad qm] at hok
    cases hok
  | remStartBusy s ts i k hget hbusy =>
    refine ⟨hfile, hhist, fun t ht => ?_⟩
    rcases List.mem_or_eq_of_mem_set ht with h | h
    · exact htasks t h
    · subst h; trivial
  | remStartDrive s ts i k hget hbusy =>
    refine ⟨hfile, hhist, fun t ht => ?_⟩
    rcases List.mem_or_eq_of_mem_set ht with h | h
    · exact htasks t h
    · subst h; trivial
  | remWaitClear s ts i hget hbusy =>
    refine ⟨hfile, hhist, fun t ht => ?_⟩
    rcases List.mem_or_eq_of_mem_set ht with h | h
    · exact htasks t h
    · subst h; trivial
  | remOpen s ts i hget =>
    refine ⟨hfile, hhist, fun t ht => ?_⟩
    rcases List.mem_or_eq_of_mem_set ht with h | h
    · exact htasks t h
    · subst h
      exact hfile
  | remSwap s ts i snap q out hget hok =>
    exfalso
    have hsnap : snap = f0 := htasks _ (List.get?_mem hget)
    rw [hsnap, removeItemPass_bad f0 hbad q] at hok
    cases hok
  | remSwapFault s ts i snap q out pre hget hok hpre =>
    exfalso
    have hsnap : snap = f0 := htasks _ (List.get?_mem hget)
    rw [hsnap, removeItemPass_bad f0 hbad q] at hok
    cases hok
  | clearStep s ts i hget =>
    exact absurd (htasks _ (List.get?_mem hget)) (fun h => h)
  | readWaitClear s ts i k hget hbusy =>
    refine ⟨hfile, hhist, fun t ht => ?_⟩
    rcases List.mem_or_eq_of_mem_set ht with h | h
    · exact htasks t h
    · subst h; trivial
  | readOpen s ts i k hget =>
    refine ⟨hfile, hhist, fun t ht => ?_⟩
    rcases List.mem_or_eq_of_mem_set ht with h | h
    · exact htasks t h
    · subst h; trivial

/-!
## Claims
-/

/-- C2 (code-bug evidence): the round-trip `setItem(k, v)` then `getItem(k)`
fails when `v` is a JavaScript-falsy value and `k` already has a record:
because `_insertSetItemQueue` guards the patch with the truthiness test
`if (queueItem)` instead of a map-membership test, the old line for `"a"` is
written through unchanged and the new record is appended as a duplicate, so
`getItem("a")` returns the stale value `1`, not the value `0` just set. -/
theorem C2_roundtrip_falsy_fails :
    setItemSolo "a" (JVal.jnum 0) [JLine.record "a" (JVal.jnum 1)] =
      .ok [JLine.record "a" (JVal.jnum 1), JLine.record "a" (JVal.jnum 0)] ∧
    getItem "a" [JLine.record "a" (JVal.jnum 1), JLine.record "a" (JVal.jnum 0)] =
      .ok (some (JVal.jnum 1)) ∧
    JVal.jnum 1 ≠ JVal.jnum 0 := by
  refine ⟨rfl, rfl, ?_⟩
  intro h
  injection h with h2
  exact absurd h2 (by decide)

/-- C3 (code-bug evidence): overwriting is not idempotent for a falsy second
value: after `setItem("a", 1)` then `setItem("a", 0)` the file holds two
records for `"a"` (the stale one still in its original position plus an
appended duplicate) and `length()` grows from 1 to 2 instead of staying 1. -/
theorem C3_overwrite_falsy_duplicates :
    setItemSolo "a" (JVal.jnum 1) [] = .ok [JLine.record "a" (JVal.jnum 1)] ∧
    setItemSolo "a" (JVal.jnum 0) [JLine.record "a" (JVal.jnum 1)] =
      .ok [JLine.record "a" (JVal.jnum 1), JLine.record "a" (JVal.jnum 0)] ∧
    length [JLine.record "a" (JVal.jnum 1)] = 1 ∧
    length [JLine.record "a" (JVal.jnum 1), JLine.record "a" (JVal.jnum 0)] = 2 :=
  ⟨rfl, rfl, rfl, rfl⟩

/-- C7 counterexample: two distinct ways the claim fails on the code.
(1) A line that parses but is not a valid encoded record — here the line
`{}`, which JSON-parses to an object with neither a `key` nor a `data`
field — raises no error anywhere: `keys` succeeds, pushing `undefined` for
it; `iterate` succeeds, invoking the callback with `undefined` arguments;
`getItem` succeeds, skipping it and returning absence.  Nothing fails with
`MalformedRecord`, although the file contains a line that is not a valid
encoded record.  (2) `getItem` short-circuits: on a file whose matching
record precedes a throwing line it succeeds instead of failing. -/
theorem C7_invalid_lines_not_failfast :
    keys [JLine.noRecord, JLine.record "b" (JVal.jnum 1)] = .ok [none, some "b"] ∧
    iterate [JLine.noRecord, JLine.record "b" (JVal.jnum 1)] =
      .ok [(none, none), (some (JVal.jnum 1), some "b")] ∧
    getItem "a" [JLine.noRecord, JLine.record "b" (JVal.jnum 1)] = .ok none ∧
    keys [JLine.noRecord, JLine.record "b" (JVal.jnum 1)] ≠ .error .malformedRecord ∧
    getItem "a" [JLine.record "a" (JVal.jnum 1), JLine.bad] = .ok (some (JVal.jnum 1)) ∧
    getItem "a" [JLine.record "a" (JVal.jnum 1), JLine.bad] ≠ .error .malformedRecord :=
  ⟨rfl, rfl, rfl, fun h => Except.noConfusion h, rfl, fun h => Except.noConfusion h⟩

/-- C7 (amended): fail-fast holds exactly for lines whose per-line
processing throws (`JSON.parse` throws, or the line is `null` so that
reading `json.key` throws): on every file containing such a line, `keys`
and `iterate` fail with `MalformedRecord` — no skipping, no partial
result — and `getItem` fails whenever no record with the queried key
precedes the line (it short-circuits at the first match).  A line that
parses to JSON that is not a valid record is never detected: on a file
whose every line parses, `keys` succeeds returning each line's possibly
`undefined` key, `iterate` succeeds invoking the callback once per line
with possibly `undefined` arguments, and `getItem` of an absent key
succeeds with absence — invalid-but-parseable lines are silently passed
over.  Throws are modelled as the operation's error result per the
`Except` embedding convention. -/
theorem C7_malformed_failfast (pre post : List JLine) (key : String) (f : List JLine)
    (hpre : ∀ l ∈ pre, lineHasKey key l = false)
    (hf : parseable f = true) (hkey : hasKey f key = false) :
    keys (pre ++ JLine.bad :: post) = .error .malformedRecord ∧
    iterate (pre ++ JLine.bad :: post) = .error .malformedRecord ∧
    getItem key (pre ++ JLine.bad :: post) = .error .malformedRecord ∧
    keys f = .ok (f.map lineKey) ∧
    iterate f = .ok (f.map lineCall) ∧
    getItem key f = .ok none := by
  have hb : JLine.bad ∈ pre ++ JLine.bad :: post := by simp
  exact ⟨keys_bad _ hb, iterate_bad _ hb, getItem_reaches_bad pre post key hpre,
    keys_parseable f hf, iterate_parseable f hf, getItem_none f key hf hkey⟩

theorem C7_witness :
    (∀ l ∈ [JLine.record "b" (JVal.jnum 1)], lineHasKey "a" l = false) ∧
    parseable [JLine.noRecord, JLine.record "b" (JVal.jnum 1)] = true ∧
    hasKey [JLine.noRecord, JLine.record "b" (JVal.jnum 1)] "a" = false ∧
    (keys ([JLine.record "b" (JVal.jnum 1)] ++ JLine.bad :: []) = .error .malformedRecord ∧
    iterate ([JLine.record "b" (JVal.jnum 1)] ++ JLine.bad :: []) = .error .malformedRecord ∧
    getItem "a" ([JLine.record "b" (JVal.jnum 1)] ++ JLine.bad :: []) = .error .malformedRecord ∧
    keys [JLine.noRecord, JLine.record "b" (JVal.jnum 1)] =
      .ok ([JLine.noRecord, JLine.record "b" (JVal.jnum 1)].map lineKey) ∧
    iterate [JLine.noRecord, JLine.record "b" (JVal.jnum 1)] =
      .ok ([JLine.noRecord, JLine.record "b" (JVal.jnum 1)].map lineCall) ∧
    getItem "a" [JLine.noRecord, JLine.record "b" (JVal.jnum 1)] = .ok none) := by
  have hpre : ∀ l ∈ [JLine.record "b" (JVal.jnum 1)], lineHasKey "a" l = false := by
    intro l hl
    rw [List.mem_singleton] at hl
    subst hl
    rfl
  exact ⟨hpre, rfl, rfl,
    C7_malformed_failfast [JLine.record "b" (JVal.jnum 1)] [] "a"
      [JLine.noRecord, JLine.record "b" (JVal.jnum 1)] hpre rfl rfl⟩

/-- C9: on a store whose well-formed file does not contain `k`, a completed
`setItem(k, v)` appends the one record for `k`; a subsequent completed
`removeItem(k)` restores exactly the original file, so `getItem(k)` then
returns absence, and the length after the removal is exactly one less than
the length before it. -/
theorem C9_deletion (f : List JLine) (k : String) (v : JVal)
    (hwf : wellFormed f = true) (hk : hasKey f k = false) :
    setItemSolo k v f = .ok (f ++ [JLine.record k v]) ∧
    removeItemSolo k (f ++ [JLine.record k v]) = .ok f ∧
    getItem k f = .ok none ∧
    length (f ++ [JLine.record k v]) = length f + 1 := by
  refine ⟨?_, ?_, getItem_none f k (parseable_of_wellFormed f hwf) hk, by simp [length]⟩
  · exact setItemPass_insert f k v hwf hk
  · exact removeItemPass_dropLast f k v hwf hk

theorem C9_witness :
    wellFormed [JLine.record "b" (JVal.jnum 5)] = true ∧
    hasKey [JLine.record "b" (JVal.jnum 5)] "a" = false ∧
    (setItemSolo "a" (JVal.jnum 0) [JLine.record "b" (JVal.jnum 5)] =
      .ok ([JLine.record "b" (JVal.jnum 5)] ++ [JLine.record "a" (JVal.jnum 0)]) ∧
    removeItemSolo "a" ([JLine.record "b" (JVal.jnum 5)] ++ [JLine.record "a" (JVal.jnum 0)]) =
      .ok [JLine.record "b" (JVal.jnum 5)] ∧
    getItem "a" [JLine.record "b" (JVal.jnum 5)] = .ok none ∧
    length ([JLine.record "b" (JVal.jnum 5)] ++ [JLine.record "a" (JVal.jnum 0)]) =
      length [JLine.record "b" (JVal.jnum 5)] + 1) :=
  ⟨rfl, rfl, C9_deletion [JLine.record "b" (JVal.jnum 5)] "a" (JVal.jnum 0) rfl rfl⟩

/-- C10: frame property of rewrite passes: on a well-formed file, every
record whose key is not among the drained batch keys appears in the pass
output as the identical line and in unchanged relative order (stated as
equality of the subsequences of untouched lines); in particular a completed
`removeItem(k)` on a store containing no record for `k` reproduces the file
verbatim. -/
theorem C10_rewrite_frame :
    (∀ (f : List JLine) (qm : List (String × JVal)) (out : List JLine),
      wellFormed f = true → setItemPass qm f = .ok out →
      out.filter (untouched (qm.map Prod.fst)) = f.filter (untouched (qm.map Prod.fst))) ∧
    (∀ (f : List JLine) (q : List String) (out : List JLine),
      wellFormed f = true → removeItemPass q f = .ok out →
      out.filter (untouched q) = f.filter (untouched q)) ∧
    (∀ (f : List JLine) (k : String),
      wellFormed f = true → hasKey f k = false → removeItemSolo k f = .ok f) := by
  refine ⟨?_, ?_, ?_⟩
  · intro f qm out _ hok
    exact setItemPass_filter f qm (qm.map Prod.fst) out
      (fun p hp => includes_map_fst qm p hp) hok
  · intro f q out _ hok
    exact removeItemPass_filter f q out hok
  · intro f k hwf hk
    exact removeItemPass_absent f k hwf hk

theorem C10_witness :
    ([JLine.record "a" (JVal.jnum 2), JLine.record "b" (JVal.jnum 3)].filter
        (untouched ([("a", JVal.jnum 2)].map Prod.fst)) =
      [JLine.record "a" (JVal.jnum 1), JLine.record "b" (JVal.jnum 3)].filter
        (untouched ([("a", JVal.jnum 2)].map Prod.fst))) ∧
    removeItemSolo "z" [JLine.record "a" (JVal.jnum 1)] = .ok [JLine.record "a" (JVal.jnum 1)] :=
  ⟨C10_rewrite_frame.1 [JLine.record "a" (JVal.jnum 1), JLine.record "b" (JVal.jnum 3)]
      [("a", JVal.jnum 2)] [JLine.record "a" (JVal.jnum 2), JLine.record "b" (JVal.jnum 3)] rfl rfl,
   C10_rewrite_frame.2.2 [JLine.record "a" (JVal.jnum 1)] "z" rfl rfl⟩

/-- C1 (code-bug evidence): two rewrite passes can hold open file handles on
the same store concurrently.  From an idle store, `setItem("a", 1)` and
`removeItem("b")` issued together can interleave so that both drivers pass
the `waitForWrite` check while `isWriteStreamBusy` is still `false` — the
check and the `isWriteStreamBusy = true` assignment are separated by an
`await` — and then both open their read/temp-write streams, reaching a
configuration with two passes' handles open at once. -/
theorem C1_two_passes_share_the_store :
    Reachable
      (initConfig [] [Task.setStart "a" (JVal.jnum 1), Task.remStart "b"])
      (⟨[], [[]], true, true, true, [], []⟩,
       [Task.setFinish [] [("a", JVal.jnum 1)], Task.remFinish [] ["b"]]) ∧
    countPassOpen [Task.setFinish [] [("a", JVal.jnum 1)], Task.remFinish [] ["b"]] = 2 := by
  refine ⟨?_, rfl⟩
  have h1 : Step
      (initConfig [] [Task.setStart "a" (JVal.jnum 1), Task.remStart "b"])
      (⟨[], [[]], false, true, false, [("a", JVal.jnum 1)], []⟩,
       [Task.setWait, Task.remStart "b"]) :=
    Step.setStartDrive _ _ 0 _ _ rfl rfl
  have h2 : Step
      ((⟨[], [[]], false, true, false, [("a", JVal.jnum 1)], []⟩ : StoreState),
       [Task.setWait, Task.remStart "b"])
      (⟨[], [[]], false, true, true, [("a", JVal.jnum 1)], ["b"]⟩,
       [Task.setWait, Task.remWait]) :=
    Step.remStartDrive _ _ 1 _ rfl rfl
  have h3 : Step
      ((⟨[], [[]], false, true, true, [("a", JVal.jnum 1)], ["b"]⟩ : StoreState),
       [Task.setWait, Task.remWait])
      (⟨[], [[]], false, true, true, [("a", JVal.jnum 1)], ["b"]⟩,
       [Task.setRun, Task.remWait]) :=
    Step.setWaitClear _ _ 0 rfl rfl
  have h4 : Step
      ((⟨[], [[]], false, true, true, [("a", JVal.jnum 1)], ["b"]⟩ : StoreState),
       [Task.setRun, Task.remWait])
      (⟨[], [[]], false, true, true, [("a", JVal.jnum 1)], ["b"]⟩,
       [Task.setRun, Task.remRun]) :=
    Step.remWaitClear _ _ 1 rfl rfl
  have h5 : Step
      ((⟨[], [[]], false, true, true, [("a", JVal.jnum 1)], ["b"]⟩ : StoreState),
       [Task.setRun, Task.remRun])
      (⟨[], [[]], true, true, true, [], ["b"]⟩,
       [Task.setFinish [] [("a", JVal.jnum 1)], Task.remRun]) :=
    Step.setOpen _ _ 0 rfl
  have h6 : Step
      ((⟨[], [[]], true, true, true, [], ["b"]⟩ : StoreState),
       [Task.setFinish [] [("a", JVal.jnum 1)], Task.remRun])
      (⟨[], [[]], true, true, true, [], []⟩,
       [Task.setFinish [] [("a", JVal.jnum 1)], Task.remFinish [] ["b"]]) :=
    Step.remOpen _ _ 1 rfl
  exact Reachable.tail _ _ _ (Reachable.tail _ _ _ (Reachable.tail _ _ _
    (Reachable.tail _ _ _ (Reachable.tail _ _ _ (Reachable.tail _ _ _
      (Reachable.refl _) h1) h2) h3) h4) h5) h6

/-- C4 (code-bug evidence): a reader can observe a half-written store file.
On the two-record store `[x ↦ 7, z ↦ 8]`, `setItem("y", 9)` drives a pass
whose output is `[x ↦ 7, z ↦ 8, y ↦ 9]`; a temp-write I/O fault leaves only
the first output line flushed when `rl` closes, the promise resolves, and
the swap runs anyway (the source neither awaits the write stream's finish
nor conditions the rename on it).  The driver then clears
`isWriteStreamBusy`, so a subsequent `getItem("z")` passes `waitForWrite`,
opens the store path, and snapshots `[x ↦ 7]` — a strict prefix of the pass
output, neither the fully pre-swap nor the fully post-swap contents — and
wrongly reports `"z"` absent.  (The same exposure also arises without any
fault from the single shared `-temp.jsonl` path under the double-drive race
of C1, where the first rename publishes an inode the other pass is still
writing to; that byte-level overlay is below this relation's granularity —
see the Step comment.) -/
theorem C4_reader_sees_partial_file :
    Reachable
      (initConfig [JLine.record "x" (JVal.jnum 7), JLine.record "z" (JVal.jnum 8)]
        [Task.setStart "y" (JVal.jnum 9), Task.getStart "z"])
      (⟨[JLine.record "x" (JVal.jnum 7)],
        [[JLine.record "x" (JVal.jnum 7), JLine.record "z" (JVal.jnum 8)],
         [JLine.record "x" (JVal.jnum 7)]],
        false, false, false, [], []⟩,
       [Task.setDone, Task.getDone "z" [JLine.record "x" (JVal.jnum 7)]]) ∧
    setItemPass [("y", JVal.jnum 9)]
        [JLine.record "x" (JVal.jnum 7), JLine.record "z" (JVal.jnum 8)] =
      .ok [JLine.record "x" (JVal.jnum 7), JLine.record "z" (JVal.jnum 8),
           JLine.record "y" (JVal.jnum 9)] ∧
    [JLine.record "x" (JVal.jnum 7)] ≠
      [JLine.record "x" (JVal.jnum 7), JLine.record "z" (JVal.jnum 8)] ∧
    [JLine.record "x" (JVal.jnum 7)] ≠
      [JLine.record "x" (JVal.jnum 7), JLine.record "z" (JVal.jnum 8),
       JLine.record "y" (JVal.jnum 9)] ∧
    getItem "z" [JLine.record "x" (JVal.jnum 7)] = .ok none := by
  refine ⟨?_, rfl, ?_, ?_, rfl⟩
  · have h1 : Step
        (initConfig [JLine.record "x" (JVal.jnum 7), JLine.record "z" (JVal.jnum 8)]
          [Task.setStart "y" (JVal.jnum 9), Task.getStart "z"])
        (⟨[JLine.record "x" (JVal.jnum 7), JLine.record "z" (JVal.jnum 8)],
          [[JLine.record "x" (JVal.jnum 7), JLine.record "z" (JVal.jnum 8)]],
          false, true, false, [("y", JVal.jnum 9)], []⟩,
         [Task.setWait, Task.getStart "z"]) :=
      Step.setStartDrive _ _ 0 _ _ rfl rfl
    have h2 : Step
        ((⟨[JLine.record "x" (JVal.jnum 7), JLine.record "z" (JVal.jnum 8)],
          [[JLine.record "x" (JVal.jnum 7), JLine.record "z" (JVal.jnum 8)]],
          false, true, false, [("y", JVal.jnum 9)], []⟩ : StoreState),
         [Task.setWait, Task.getStart "z"])
        (⟨[JLine.record "x" (JVal.jnum 7), JLine.record "z" (JVal.jnum 8)],
          [[JLine.record "x" (JVal.jnum 7), JLine.record "z" (JVal.jnum 8)]],
          false, true, false, [("y", JVal.jnum 9)], []⟩,
         [Task.setRun, Task.getStart "z"]) :=
      Step.setWaitClear _ _ 0 rfl rfl
    have h3 : Step
        ((⟨[JLine.record "x" (JVal.jnum 7), JLine.record "z" (JVal.jnum 8)],
          [[JLine.record "x" (JVal.jnum 7), JLine.record "z" (JVal.jnum 8)]],
          false, true, false, [("y", JVal.jnum 9)], []⟩ : StoreState),
         [Task.setRun, Task.getStart "z"])
        (⟨[JLine.record "x" (JVal.jnum 7), JLine.record "z" (JVal.jnum 8)],
          [[JLine.record "x" (JVal.jnum 7), JLine.record "z" (JVal.jnum 8)]],
          true, true, false, [], []⟩,
         [Task.setFinish [JLine.record "x" (JVal.jnum 7), JLine.record "z" (JVal.jnum 8)]
            [("y", JVal.jnum 9)], Task.getStart "z"]) :=
      Step.setOpen _ _ 0 rfl
    have h4 : Step
        ((⟨[JLine.record "x" (JVal.jnum 7), JLine.record "z" (JVal.jnum 8)],
          [[JLine.record "x" (JVal.jnum 7), JLine.record "z" (JVal.jnum 8)]],
          true, true, false, [], []⟩ : StoreState),
         [Task.setFinish [JLine.record "x" (JVal.jnum 7), JLine.record "z" (JVal.jnum 8)]
            [("y", JVal.jnum 9)], Task.getStart "z"])
        (⟨[JLine.record "x" (JVal.jnum 7)],
          [[JLine.record "x" (JVal.jnum 7), JLine.record "z" (JVal.jnum 8)],
           [JLine.record "x" (JVal.jnum 7)]],
          false, false, false, [], []⟩,
         [Task.setDone, Task.getStart "z"]) :=
      Step.setSwapFault _ _ 0 _ _ _ _ rfl rfl
        ⟨[JLine.record "z" (JVal.jnum 8), JLine.record "y" (JVal.jnum 9)], rfl⟩
    have h5 : Step
        ((⟨[JLine.record "x" (JVal.jnum 7)],
          [[JLine.record "x" (JVal.jnum 7), JLine.record "z" (JVal.jnum 8)],
           [JLine.record "x" (JVal.jnum 7)]],
          false, false, false, [], []⟩ : StoreState),
         [Task.setDone, Task.getStart "z"])
        (⟨[JLine.record "x" (JVal.jnum 7)],
          [[JLine.record "x" (JVal.jnum 7), JLine.record "z" (JVal.jnum 8)],
           [JLine.record "x" (JVal.jnum 7)]],
          false, false, false, [], []⟩,
         [Task.setDone, Task.getOpen "z"]) :=
      Step.readWaitClear _ _ 1 _ rfl rfl
    have h6 : Step
        ((⟨[JLine.record "x" (JVal.jnum 7)],
          [[JLine.record "x" (JVal.jnum 7), JLine.record "z" (JVal.jnum 8)],
           [JLine.record "x" (JVal.jnum 7)]],
          false, false, false, [], []⟩ : StoreState),
         [Task.setDone, Task.getOpen "z"])
        (⟨[JLine.record "x" (JVal.jnum 7)],
          [[JLine.record "x" (JVal.jnum 7), JLine.record "z" (JVal.jnum 8)],
           [JLine.record "x" (JVal.jnum 7)]],
          false, false, false, [], []⟩,
         [Task.setDone, Task.getDone "z" [JLine.record "x" (JVal.jnum 7)]]) :=
      Step.readOpen _ _ 1 _ rfl
    exact Reachable.tail _ _ _ (Reachable.tail _ _ _ (Reachable.tail _ _ _
      (Reachable.tail _ _ _ (Reachable.tail _ _ _ (Reachable.tail _ _ _
        (Reachable.refl _) h1) h2) h3) h4) h5) h6
  · intro h
    injection h with h1 h2
    exact List.noConfusion h2
  · intro h
    injection h with h1 h2
    exact List.noConfusion h2

/-- C5 (code-bug evidence): the no-swap-on-failure guarantee holds for
decode failures but not for write I/O faults.  Decode half (proved in
general): on the store `[x ↦ 7, <bad line>]`, every set pass and every
remove pass fails with `MalformedRecord`, and every configuration reachable
from a driving `setItem("y", 9)` on that store still holds exactly the
pre-rewrite content with nothing ever published over it (the throw in the
`line` handler means `close` never resolves, so the swap code is
unreachable).  Write-fault half (the violation): on the well-formed store
`[x ↦ 7, z ↦ 8]`, the same driving `setItem("y", 9)` suffering a temp-write
I/O fault still reaches its swap — the `close` handler resolves without
awaiting the write stream's flush or handling its `error`, and
`unlinkSync`/`renameSync` run unconditionally — so the partially flushed
temp file `[x ↦ 7]` is renamed over the original and the call resolves
without an error: the store afterwards is neither its pre-rewrite content
nor the intended output, and the record `z ↦ 8` is destroyed. -/
theorem C5_swap_runs_despite_write_fault :
    (∀ qm, setItemPass qm [JLine.record "x" (JVal.jnum 7), JLine.bad] =
      .error .malformedRecord) ∧
    (∀ q, removeItemPass q [JLine.record "x" (JVal.jnum 7), JLine.bad] =
      .error .malformedRecord) ∧
    (∀ c, Reachable
        (initConfig [JLine.record "x" (JVal.jnum 7), JLine.bad]
          [Task.setStart "y" (JVal.jnum 9)]) c →
      c.1.file = [JLine.record "x" (JVal.jnum 7), JLine.bad] ∧
      c.1.history = [[JLine.record "x" (JVal.jnum 7), JLine.bad]]) ∧
    Reachable
      (initConfig [JLine.record "x" (JVal.jnum 7), JLine.record "z" (JVal.jnum 8)]
        [Task.setStart "y" (JVal.jnum 9)])
      (⟨[JLine.record "x" (JVal.jnum 7)],
        [[JLine.record "x" (JVal.jnum 7), JLine.record "z" (JVal.jnum 8)],
         [JLine.record "x" (JVal.jnum 7)]],
        false, false, false, [], []⟩,
       [Task.setDone]) ∧
    setItemPass [("y", JVal.jnum 9)]
        [JLine.record "x" (JVal.jnum 7), JLine.record "z" (JVal.jnum 8)] =
      .ok [JLine.record "x" (JVal.jnum 7), JLine.record "z" (JVal.jnum 8),
           JLine.record "y" (JVal.jnum 9)] ∧
    [JLine.record "x" (JVal.jnum 7)] ≠
      [JLine.record "x" (JVal.jnum 7), JLine.record "z" (JVal.jnum 8)] ∧
    [JLine.record "x" (JVal.jnum 7)] ≠
      [JLine.record "x" (JVal.jnum 7), JLine.record "z" (JVal.jnum 8),
       JLine.record "y" (JVal.jnum 9)] := by
  have hbad : JLine.bad ∈ [JLine.record "x" (JVal.jnum 7), JLine.bad] := by simp
  refine ⟨setItemPass_bad _ hbad, removeItemPass_bad _ hbad, ?_, ?_, rfl, ?_, ?_⟩
  · intro c hr
    have hts : ∀ t ∈ [Task.setStart "y" (JVal.jnum 9)],
        taskNoSwap [JLine.record "x" (JVal.jnum 7), JLine.bad] t := by
      intro t ht
      rw [List.mem_singleton] at ht
      subst ht
      trivial
    have hinv : NoSwapInv [JLine.record "x" (JVal.jnum 7), JLine.bad]
        (initConfig [JLine.record "x" (JVal.jnum 7), JLine.bad]
          [Task.setStart "y" (JVal.jnum 9)]) := ⟨rfl, rfl, hts⟩
    have hfin := reachable_preserve (fun _ _ hp st => noSwapInv_step hbad hp st) hr hinv
    exact ⟨hfin.1, hfin.2.1⟩
  · have h1 : Step
        (initConfig [JLine.record "x" (JVal.jnum 7), JLine.record "z" (JVal.jnum 8)]
          [Task.setStart "y" (JVal.jnum 9)])
        (⟨[JLine.record "x" (JVal.jnum 7), JLine.record "z" (JVal.jnum 8)],
          [[JLine.record "x" (JVal.jnum 7), JLine.record "z" (JVal.jnum 8)]],
          false, true, false, [("y", JVal.jnum 9)], []⟩,
         [Task.setWait]) :=
      Step.setStartDrive _ _ 0 _ _ rfl rfl
    have h2 : Step
        ((⟨[JLine.record "x" (JVal.jnum 7), JLine.record "z" (JVal.jnum 8)],
          [[JLine.record "x" (JVal.jnum 7), JLine.record "z" (JVal.jnum 8)]],
          false, true, false, [("y", JVal.jnum 9)], []⟩ : StoreState),
         [Task.setWait])
        (⟨[JLine.record "x" (JVal.jnum 7), JLine.record "z" (JVal.jnum 8)],
          [[JLine.record "x" (JVal.jnum 7), JLine.record "z" (JVal.jnum 8)]],
          false, true, false, [("y", JVal.jnum 9)], []⟩,
         [Task.setRun]) :=
      Step.setWaitClear _ _ 0 rfl rfl
    have h3 : Step
        ((⟨[JLine.record "x" (JVal.jnum 7), JLine.record "z" (JVal.jnum 8)],
          [[JLine.record "x" (JVal.jnum 7), JLine.record "z" (JVal.jnum 8)]],
          false, true, false, [("y", JVal.jnum 9)], []⟩ : StoreState),
         [Task.setRun])
        (⟨[JLine.record "x" (JVal.jnum 7), JLine.record "z" (JVal.jnum 8)],
          [[JLine.record "x" (JVal.jnum 7), JLine.record "z" (JVal.jnum 8)]],
          true, true, false, [], []⟩,
         [Task.setFinish [JLine.record "x" (JVal.jnum 7), JLine.record "z" (JVal.jnum 8)]
            [("y", JVal.jnum 9)]]) :=
      Step.setOpen _ _ 0 rfl
    have h4 : Step
        ((⟨[JLine.record "x" (JVal.jnum 7), JLine.record "z" (JVal.jnum 8)],
          [[JLine.record "x" (JVal.jnum 7), JLine.record "z" (JVal.jnum 8)]],
          true, true, false, [], []⟩ : StoreState),
         [Task.setFinish [JLine.record "x" (JVal.jnum 7), JLine.record "z" (JVal.jnum 8)]
            [("y", JVal.jnum 9)]])
        (⟨[JLine.record "x" (JVal.jnum 7)],
          [[JLine.record "x" (JVal.jnum 7), JLine.record "z" (JVal.jnum 8)],
           [JLine.record "x" (JVal.jnum 7)]],
          false, false, false, [], []⟩,
         [Task.setDone]) :=
      Step.setSwapFault _ _ 0 _ _ _ _ rfl rfl
        ⟨[JLine.record "z" (JVal.jnum 8), JLine.record "y" (JVal.jnum 9)], rfl⟩
    exact Reachable.tail _ _ _ (Reachable.tail _ _ _ (Reachable.tail _ _ _
      (Reachable.tail _ _ _ (Reachable.refl _) h1) h2) h3) h4
  · intro h
    injection h with h1 h2
    exact List.noConfusion h2
  · intro h
    injection h with h1 h2
    exact List.noConfusion h2

theorem C5_witness :
    (⟨⟨[JLine.record "x" (JVal.jnum 7), JLine.bad],
       [[JLine.record "x" (JVal.jnum 7), JLine.bad]], true, true, false, [], []⟩,
      [Task.setFinish [JLine.record "x" (JVal.jnum 7), JLine.bad]
         [("y", JVal.jnum 9)]]⟩ : Config).1.file =
      [JLine.record "x" (JVal.jnum 7), JLine.bad] ∧
    (⟨⟨[JLine.record "x" (JVal.jnum 7), JLine.bad],
       [[JLine.record "x" (JVal.jnum 7), JLine.bad]], true, true, false, [], []⟩,
      [Task.setFinish [JLine.record "x" (JVal.jnum 7), JLine.bad]
         [("y", JVal.jnum 9)]]⟩ : Config).1.history =
      [[JLine.record "x" (JVal.jnum 7), JLine.bad]] := by
  have h1 : Step
      (initConfig [JLine.record "x" (JVal.jnum 7), JLine.bad]
        [Task.setStart "y" (JVal.jnum 9)])
      (⟨[JLine.record "x" (JVal.jnum 7), JLine.bad],
        [[JLine.record "x" (JVal.jnum 7), JLine.bad]],
        false, true, false, [("y", JVal.jnum 9)], []⟩,
       [Task.setWait]) :=
    Step.setStartDrive _ _ 0 _ _ rfl rfl
  have h2 : Step
      ((⟨[JLine.record "x" (JVal.jnum 7), JLine.bad],
        [[JLine.record "x" (JVal.jnum 7), JLine.bad]],
        false, true, false, [("y", JVal.jnum 9)], []⟩ : StoreState),
       [Task.setWait])
      (⟨[JLine.record "x" (JVal.jnum 7), JLine.bad],
        [[JLine.record "x" (JVal.jnum 7), JLine.bad]],
        false, true, false, [("y", JVal.jnum 9)], []⟩,
       [Task.setRun]) :=
    Step.setWaitClear _ _ 0 rfl rfl
  have h3 : Step
      ((⟨[JLine.record "x" (JVal.jnum 7), JLine.bad],
        [[JLine.record "x" (JVal.jnum 7), JLine.bad]],
        false, true, false, [("y", JVal.jnum 9)], []⟩ : StoreState),
       [Task.setRun])
      (⟨[JLine.record "x" (JVal.jnum 7), JLine.bad],
        [[JLine.record "x" (JVal.jnum 7), JLine.bad]],
        true, true, false, [], []⟩,
       [Task.setFinish [JLine.record "x" (JVal.jnum 7), JLine.bad]
          [("y", JVal.jnum 9)]]) :=
    Step.setOpen _ _ 0 rfl
  exact C5_swap_runs_despite_write_fault.2.2.1 _
    (Reachable.tail _ _ _ (Reachable.tail _ _ _ (Reachable.tail _ _ _
      (Reachable.refl _) h1) h2) h3)

/-- C6 (code-bug evidence): `clear()` does not wait for an in-flight rewrite
pass: it is fully synchronous and never checks `isWriteStreamBusy` before
deleting and recreating the store file.  From a one-record store, a driving
`setItem("b", 2)` can be between opening its streams and its swap when
`clear()` runs to completion (deleting and recreating the file mid-pass);
the pass's later swap then overwrites the cleared store with its output, so
the store ends up non-empty although `clear()` completed after the pass
began. -/
theorem C6_clear_ignores_inflight_pass :
    Reachable
      (initConfig [JLine.record "a" (JVal.jnum 1)]
        [Task.setStart "b" (JVal.jnum 2), Task.clearStart])
      (⟨[JLine.record "a" (JVal.jnum 1)], [[JLine.record "a" (JVal.jnum 1)]],
        true, true, false, [], []⟩,
       [Task.setFinish [JLine.record "a" (JVal.jnum 1)] [("b", JVal.jnum 2)], Task.clearStart]) ∧
    Step
      ((⟨[JLine.record "a" (JVal.jnum 1)], [[JLine.record "a" (JVal.jnum 1)]],
        true, true, false, [], []⟩ : StoreState),
       [Task.setFinish [JLine.record "a" (JVal.jnum 1)] [("b", JVal.jnum 2)], Task.clearStart])
      (⟨[], [[JLine.record "a" (JVal.jnum 1)], []], false, true, false, [], []⟩,
       [Task.setFinish [JLine.record "a" (JVal.jnum 1)] [("b", JVal.jnum 2)], Task.clearDone]) ∧
    Reachable
      (initConfig [JLine.record "a" (JVal.jnum 1)]
        [Task.setStart "b" (JVal.jnum 2), Task.clearStart])
      (⟨[JLine.record "a" (JVal.jnum 1), JLine.record "b" (JVal.jnum 2)],
        [[JLine.record "a" (JVal.jnum 1)], [],
         [JLine.record "a" (JVal.jnum 1), JLine.record "b" (JVal.jnum 2)]],
        false, false, false, [], []⟩,
       [Task.setDone, Task.clearDone]) ∧
    [JLine.record "a" (JVal.jnum 1), JLine.record "b" (JVal.jnum 2)] ≠ ([] : List JLine) := by
  have h1 : Step
      (initConfig [JLine.record "a" (JVal.jnum 1)]
        [Task.setStart "b" (JVal.jnum 2), Task.clearStart])
      (⟨[JLine.record "a" (JVal.jnum 1)], [[JLine.record "a" (JVal.jnum 1)]],
        false, true, false, [("b", JVal.jnum 2)], []⟩,
       [Task.setWait, Task.clearStart]) :=
    Step.setStartDrive _ _ 0 _ _ rfl rfl
  have h2 : Step
      ((⟨[JLine.record "a" (JVal.jnum 1)], [[JLine.record "a" (JVal.jnum 1)]],
        false, true, false, [("b", JVal.jnum 2)], []⟩ : StoreState),
       [Task.setWait, Task.clearStart])
      (⟨[JLine.record "a" (JVal.jnum 1)], [[JLine.record "a" (JVal.jnum 1)]],
        false, true, false, [("b", JVal.jnum 2)], []⟩,
       [Task.setRun, Task.clearStart]) :=
    Step.setWaitClear _ _ 0 rfl rfl
  have h3 : Step
      ((⟨[JLine.record "a" (JVal.jnum 1)], [[JLine.record "a" (JVal.jnum 1)]],
        false, true, false, [("b", JVal.jnum 2)], []⟩ : StoreState),
       [Task.setRun, Task.clearStart])
      (⟨[JLine.record "a" (JVal.jnum 1)], [[JLine.record "a" (JVal.jnum 1)]],
        true, true, false, [], []⟩,
       [Task.setFinish [JLine.record "a" (JVal.jnum 1)] [("b", JVal.jnum 2)], Task.clearStart]) :=
    Step.setOpen _ _ 0 rfl
  have hmid : Reachable
      (initConfig [JLine.record "a" (JVal.jnum 1)]
        [Task.setStart "b" (JVal.jnum 2), Task.clearStart])
      (⟨[JLine.record "a" (JVal.jnum 1)], [[JLine.record "a" (JVal.jnum 1)]],
        true, true, false, [], []⟩,
       [Task.setFinish [JLine.record "a" (JVal.jnum 1)] [("b", JVal.jnum 2)], Task.clearStart]) :=
    Reachable.tail _ _ _ (Reachable.tail _ _ _ (Reachable.tail _ _ _
      (Reachable.refl _) h1) h2) h3
  have hclear : Step
      ((⟨[JLine.record "a" (JVal.jnum 1)], [[JLine.record "a" (JVal.jnum 1)]],
        true, true, false, [], []⟩ : StoreState),
       [Task.setFinish [JLine.record "a" (JVal.jnum 1)] [("b", JVal.jnum 2)], Task.clearStart])
      (⟨[], [[JLine.record "a" (JVal.jnum 1)], []], false, true, false, [], []⟩,
       [Task.setFinish [JLine.record "a" (JVal.jnum 1)] [("b", JVal.jnum 2)], Task.clearDone]) :=
    Step.clearStep _ _ 1 rfl
  have hswap : Step
      ((⟨[], [[JLine.record "a" (JVal.jnum 1)], []], false, true, false, [], []⟩ : StoreState),
       [Task.setFinish [JLine.record "a" (JVal.jnum 1)] [("b", JVal.jnum 2)], Task.clearDone])
      (⟨[JLine.record "a" (JVal.jnum 1), JLine.record "b" (JVal.jnum 2)],
        [[JLine.record "a" (JVal.jnum 1)], [],
         [JLine.record "a" (JVal.jnum 1), JLine.record "b" (JVal.jnum 2)]],
        false, false, false, [], []⟩,
       [Task.setDone, Task.clearDone]) :=
    Step.setSwap _ _ 0 _ _ _ rfl rfl
  refine ⟨hmid, hclear, ?_, fun h => List.noConfusion h⟩
  exact Reachable.tail _ _ _ (Reachable.tail _ _ _ hmid hclear) hswap

/-- C8 counterexample: a `setItem("k2", 2)` issued while the pass driven by
`setItem("k1", 1)` is already in flight — after the driver's drain, before
its swap — returns immediately, yet after both calls have resolved and the
pass has completed, the store holds only the record for `"k1"`: the entry
for `"k2"` is still sitting in the pending queue, it was not applied by the
in-flight pass nor by any subsequent one, `getItem("k2")` returns absence,
and `length()` is 1, not 2. -/
theorem C8_late_enqueue_not_persisted :
    Reachable
      (initConfig [] [Task.setStart "k1" (JVal.jnum 1), Task.setStart "k2" (JVal.jnum 2)])
      (⟨[JLine.record "k1" (JVal.jnum 1)], [[], [JLine.record "k1" (JVal.jnum 1)]],
        false, false, false, [("k2", JVal.jnum 2)], []⟩,
       [Task.setDone, Task.setDone]) ∧
    getItem "k2" [JLine.record "k1" (JVal.jnum 1)] = .ok none ∧
    length [JLine.record "k1" (JVal.jnum 1)] = 1 := by
  refine ⟨?_, rfl, rfl⟩
  have h1 : Step
      (initConfig [] [Task.setStart "k1" (JVal.jnum 1), Task.setStart "k2" (JVal.jnum 2)])
      (⟨[], [[]], false, true, false, [("k1", JVal.jnum 1)], []⟩,
       [Task.setWait, Task.setStart "k2" (JVal.jnum 2)]) :=
    Step.setStartDrive _ _ 0 _ _ rfl rfl
  have h2 : Step
      ((⟨[], [[]], false, true, false, [("k1", JVal.jnum 1)], []⟩ : StoreState),
       [Task.setWait, Task.setStart "k2" (JVal.jnum 2)])
      (⟨[], [[]], false, true, false, [("k1", JVal.jnum 1)], []⟩,
       [Task.setRun, Task.setStart "k2" (JVal.jnum 2)]) :=
    Step.setWaitClear _ _ 0 rfl rfl
  have h3 : Step
      ((⟨[], [[]], false, true, false, [("k1", JVal.jnum 1)], []⟩ : StoreState),
       [Task.setRun, Task.setStart "k2" (JVal.jnum 2)])
      (⟨[], [[]], true, true, false, [], []⟩,
       [Task.setFinish [] [("k1", JVal.jnum 1)], Task.setStart "k2" (JVal.jnum 2)]) :=
    Step.setOpen _ _ 0 rfl
  have h4 : Step
      ((⟨[], [[]], true, true, false, [], []⟩ : StoreState),
       [Task.setFinish [] [("k1", JVal.jnum 1)], Task.setStart "k2" (JVal.jnum 2)])
      (⟨[], [[]], true, true, false, [("k2", JVal.jnum 2)], []⟩,
       [Task.setFinish [] [("k1", JVal.jnum 1)], Task.setDone]) :=
    Step.setStartBusy _ _ 1 _ _ rfl rfl
  have h5 : Step
      ((⟨[], [[]], true, true, false, [("k2", JVal.jnum 2)], []⟩ : StoreState),
       [Task.setFinish [] [("k1", JVal.jnum 1)], Task.setDone])
      (⟨[JLine.record "k1" (JVal.jnum 1)], [[], [JLine.record "k1" (JVal.jnum 1)]],
        false, false, false, [("k2", JVal.jnum 2)], []⟩,
       [Task.setDone, Task.setDone]) :=
    Step.setSwap _ _ 0 _ _ _ rfl rfl
  exact Reachable.tail _ _ _ (Reachable.tail _ _ _ (Reachable.tail _ _ _
    (Reachable.tail _ _ _ (Reachable.tail _ _ _ (Reachable.refl _) h1) h2) h3) h4) h5

/-- C8 (amended): concurrent batching holds for entries enqueued before the
driving pass drains the queue: if `setItem(k1, v1)` and `setItem(k2, v2)`
with distinct keys are both enqueued before the driver's drain step (as when
both calls are issued in the same synchronous block), then after both calls
resolve, one pass has persisted records for both keys, `getItem` returns
each value, and `length()` reflects both.  An entry enqueued after the drain
stays queued for a later driving call instead (see the counterexample). -/
theorem C8_concurrent_batching (k1 k2 : String) (v1 v2 : JVal) (hne : k1 ≠ k2) :
    Reachable
      (initConfig [] [Task.setStart k1 v1, Task.setStart k2 v2])
      (⟨[JLine.record k1 v1, JLine.record k2 v2],
        [[], [JLine.record k1 v1, JLine.record k2 v2]], false, false, false, [], []⟩,
       [Task.setDone, Task.setDone]) ∧
    getItem k1 [JLine.record k1 v1, JLine.record k2 v2] = .ok (some v1) ∧
    getItem k2 [JLine.record k1 v1, JLine.record k2 v2] = .ok (some v2) ∧
    length [JLine.record k1 v1, JLine.record k2 v2] = 2 := by
  have hmap : mapOfQueue [(k1, v1), (k2, v2)] = [(k1, v1), (k2, v2)] := by
    simp [mapOfQueue, mapInsert, hne]
  have hpass : setItemPass (mapOfQueue [(k1, v1), (k2, v2)]) [] =
      .ok [JLine.record k1 v1, JLine.record k2 v2] := by
    rw [hmap]
    rfl
  refine ⟨?_, by simp [getItem], by simp [getItem, hne], rfl⟩
  have h1 : Step
      (initConfig [] [Task.setStart k1 v1, Task.setStart k2 v2])
      (⟨[], [[]], false, true, false, [(k1, v1)], []⟩,
       [Task.setWait, Task.setStart k2 v2]) :=
    Step.setStartDrive _ _ 0 _ _ rfl rfl
  have h2 : Step
      ((⟨[], [[]], false, true, false, [(k1, v1)], []⟩ : StoreState),
       [Task.setWait, Task.setStart k2 v2])
      (⟨[], [[]], false, true, false, [(k1, v1), (k2, v2)], []⟩,
       [Task.setWait, Task.setDone]) :=
    Step.setStartBusy _ _ 1 _ _ rfl rfl
  have h3 : Step
      ((⟨[], [[]], false, true, false, [(k1, v1), (k2, v2)], []⟩ : StoreState),
       [Task.setWait, Task.setDone])
      (⟨[], [[]], false, true, false, [(k1, v1), (k2, v2)], []⟩,
       [Task.setRun, Task.setDone]) :=
    Step.setWaitClear _ _ 0 rfl rfl
  have h4 : Step
      ((⟨[], [[]], false, true, false, [(k1, v1), (k2, v2)], []⟩ : StoreState),
       [Task.setRun, Task.setDone])
      (⟨[], [[]], true, true, false, [], []⟩,
       [Task.setFinish [] (mapOfQueue [(k1, v1), (k2, v2)]), Task.setDone]) :=
    Step.setOpen _ _ 0 rfl
  have h5 : Step
      ((⟨[], [[]], true, true, false, [], []⟩ : StoreState),
       [Task.setFinish [] (mapOfQueue [(k1, v1), (k2, v2)]), Task.setDone])
      (⟨[JLine.record k1 v1, JLine.record k2 v2],
        [[], [JLine.record k1 v1, JLine.record k2 v2]], false, false, false, [], []⟩,
       [Task.setDone, Task.setDone]) :=
    Step.setSwap _ _ 0 _ _ _ rfl hpass
  exact Reachable.tail _ _ _ (Reachable.tail _ _ _ (Reachable.tail _ _ _
    (Reachable.tail _ _ _ (Reachable.tail _ _ _ (Reachable.refl _) h1) h2) h3) h4) h5

theorem C8_witness :
    ("a" : String) ≠ "b" ∧
    (Reachable
      (initConfig [] [Task.setStart "a" (JVal.jnum 1), Task.setStart "b" (JVal.jnum 2)])
      (⟨[JLine.record "a" (JVal.jnum 1), JLine.record "b" (JVal.jnum 2)],
        [[], [JLine.record "a" (JVal.jnum 1), JLine.record "b" (JVal.jnum 2)]],
        false, false, false, [], []⟩,
       [Task.setDone, Task.setDone]) ∧
    getItem "a" [JLine.record "a" (JVal.jnum 1), JLine.record "b" (JVal.jnum 2)] =
      .ok (some (JVal.jnum 1)) ∧
    getItem "b" [JLine.record "a" (JVal.jnum 1), JLine.record "b" (JVal.jnum 2)] =
      .ok (some (JVal.jnum 2)) ∧
    length [JLine.record "a" (JVal.jnum 1), JLine.record "b" (JVal.jnum 2)] = 2) :=
  ⟨by decide, C8_concurrent_batching "a" "b" (JVal.jnum 1) (JVal.jnum 2) (by decide)⟩

end Jsonl
